import Mathlib

set_option autoImplicit false

/-!
A shallow embedding of the dynamic form engine of the employee-management
repository (src/employee/models.py, src/employee/views.py,
src/employee/serializers.py).

The embedded state is the two relevant tables (FormField and Employee rows)
plus the autoincrement counters the database keeps for their primary keys.
Python dicts are modelled as insertion-ordered association lists, `None` as
`Option.none`, and each view's database effect as a pure function from the
state (and the request parameters) to either a new state or the error the
framework raises (serializer ValidationError, DoesNotExist/404, or the
IntegrityError of a violated unique constraint).
-/

/-- A row of the FormField model (models.py, class FormField): one per-owner
form-field definition. `id` is the autoincrement primary key, `created_by`
the id of the owning user. -/
structure FormField where
  id : Nat
  label : String
  field_type : String
  required : Bool
  order : Nat
  created_by : Nat
  deriving DecidableEq

/-- One entry of the values map a record stores: the dict
`{'value': ..., 'type': ...}` built by employee_create_view and
employee_edit_view. `value` is `none` when the form submitted no value for
the field (`request.POST.get` returns `None`). -/
structure FieldValue where
  value : Option String
  type : String
  deriving DecidableEq

/-- A row of the Employee model (models.py, class Employee): `user` is the id
of the owning account (a OneToOneField, hence unique across rows), `fields`
the stored JSON map from field label to the snapshotted value/type pair,
modelled as an insertion-ordered association list exactly like the Python
dict the views build. -/
structure Employee where
  id : Nat
  user : Nat
  fields : List (String × FieldValue)
  deriving DecidableEq

/-- The persistent state the views read and write: the FormField and Employee
tables and the autoincrement counters for their primary keys. -/
structure Database where
  form_fields : List FormField
  employees : List Employee
  next_field_id : Nat
  next_employee_id : Nat
  deriving DecidableEq

/-- The errors the embedded operations surface: DRF serializer validation
failure, Django DoesNotExist (a 404 through the scoped views), and the
IntegrityError the database raises when an insert violates a unique
constraint. -/
inductive DBError where
  | validationError
  | notFoundError
  | integrityError
  deriving DecidableEq

deriving instance DecidableEq for Except

/-- Assignment `d[k] = v` on a Python dict modelled as an insertion-ordered
association list: an existing key keeps its position and receives the new
value, a new key is appended at the end. -/
def dictInsert : List (String × FieldValue) → String → FieldValue → List (String × FieldValue)
  | [], k, v => [(k, v)]
  | e :: rest, k, v => if e.1 = k then (k, v) :: rest else e :: dictInsert rest k v

/-- Lookup `d.get(k)` on the association list. -/
def dictGet : List (String × FieldValue) → String → Option FieldValue
  | [], _ => none
  | e :: rest, k => if e.1 = k then some e.2 else dictGet rest k

/-- The keys of the dict, in insertion order. -/
def dictKeys (m : List (String × FieldValue)) : List String :=
  m.map (fun e => e.1)

/-- `request.POST.get('field_<i>')`: the submitted value for field id `i`,
`none` when the form posted none. The POST body is modelled as the list of
(field id, submitted value) pairs. -/
def rawGet (post : List (Nat × String)) (i : Nat) : Option String :=
  (post.find? (fun p => decide (p.1 = i))).map (fun p => p.2)

/-- The `{'value': ..., 'type': ...}` dict employee_create_view and
employee_edit_view store for one field. -/
def submittedPair (post : List (Nat × String)) (f : FormField) : FieldValue :=
  { value := rawGet post f.id, type := f.field_type }

/-- The loop of employee_create_view / employee_edit_view:
`fields = {}` then, for each field of the owner,
`fields[field.label] = {'value': request.POST.get(...), 'type': field.field_type}`. -/
def buildValues (form_fields : List FormField) (post : List (Nat × String)) :
    List (String × FieldValue) :=
  form_fields.foldl (fun acc f => dictInsert acc f.label (submittedPair post f)) []

/-- Insertion into a list sorted by `order`, keeping an earlier element in
front of later ones of equal `order` (a stable ORDER BY). -/
def orderInsert (f : FormField) : List FormField → List FormField
  | [] => [f]
  | g :: gs => if f.order ≤ g.order then f :: g :: gs else g :: orderInsert f gs

/-- Stable sort by the `order` column: `class Meta: ordering = ['order']`
(models.py) makes every FormField queryset come back ordered by `order`,
ties kept in table order. -/
def sortByOrder : List FormField → List FormField
  | [] => []
  | f :: fs => orderInsert f (sortByOrder fs)

/-- `FormField.objects.filter(created_by=owner)`: the owner's field
definitions in queryset order (the model Meta ordering by `order`). -/
def listFields (db : Database) (owner : Nat) : List FormField :=
  sortByOrder (db.form_fields.filter (fun f => decide (f.created_by = owner)))

/-- The last element of `ffs` with label `L`: with duplicate labels the build
loop writes this field's pair last, so its pair is the one the final dict
keeps under `L`. -/
def lastFieldWith : List FormField → String → Option FormField
  | [], _ => none
  | f :: rest, L =>
    match lastFieldWith rest L with
    | some g => some g
    | none => if f.label = L then some f else none

/-- FormField.FIELD_TYPES (models.py): the eight allowed field type keys. -/
def FIELD_TYPES : List String :=
  ["text", "number", "date", "email", "password", "textarea", "checkbox", "select"]

/-- Membership in the FIELD_TYPES enumeration, the check the DRF serializer's
ChoiceField performs. -/
def validType (t : String) : Bool :=
  FIELD_TYPES.contains t

/-- Python str.strip as DRF's CharField (trim_whitespace=True, the default)
applies it to a submitted label: leading and trailing whitespace characters
removed before validation and storage. -/
def trimStr (s : String) : String :=
  String.mk (((s.data.dropWhile Char.isWhitespace).reverse.dropWhile Char.isWhitespace).reverse)

/-- The serializer's label checks (FormFieldSerializer, a ModelSerializer over
models.CharField(max_length=100)): after trimming, the label must be nonempty
(required, allow_blank=False) and at most 100 characters (max_length). -/
def validLabel (l : String) : Bool :=
  decide (trimStr l ≠ "" ∧ (trimStr l).length ≤ 100)

/-- The POST branch of form_design_view (views.py): `FormField.objects.create`
with label, field_type, required and created_by. No other column is given, so
`order` takes the model default 0; `Model.save` runs no `choices` validation,
so any field_type string is stored as is. -/
def form_design_view_post (db : Database) (owner : Nat) (label field_type : String)
    (required : Bool) : Database :=
  { db with
    form_fields := db.form_fields ++
      [{ id := db.next_field_id, label := label, field_type := field_type,
         required := required, order := 0, created_by := owner }],
    next_field_id := db.next_field_id + 1 }

/-- FormFieldListCreateView POST (views.py) through FormFieldSerializer
(serializers.py): the serializer rejects with a ValidationError a field_type
outside FIELD_TYPES (the ChoiceField generated from the model `choices`) and
a label that is blank after trimming or longer than 100 characters (the
CharField generated from models.CharField(max_length=100), required and not
allow_blank); otherwise the trimmed label is stored. `required` and `order`
fall back to the model defaults (true and 0) when the request omits them;
perform_create stores created_by = the requesting user. -/
def api_formfield_create (db : Database) (owner : Nat) (label field_type : String)
    (required : Option Bool) (order : Option Nat) : Except DBError Database :=
  if validLabel label && validType field_type then
    Except.ok { db with
      form_fields := db.form_fields ++
        [{ id := db.next_field_id, label := trimStr label, field_type := field_type,
           required := required.getD true, order := order.getD 0, created_by := owner }],
      next_field_id := db.next_field_id + 1 }
  else Except.error DBError.validationError

/-- FormFieldRetrieveUpdateDestroyView GET: get_queryset restricts to
created_by = the requesting user, then the object is fetched by pk; a pk
outside that queryset is a 404. -/
def formfield_retrieve (db : Database) (owner fid : Nat) : Except DBError FormField :=
  match (db.form_fields.filter (fun f => decide (f.created_by = owner))).find?
      (fun f => decide (f.id = fid)) with
  | none => Except.error DBError.notFoundError
  | some f => Except.ok f

/-- FormFieldRetrieveUpdateDestroyView PUT: 404 when the pk is not among the
requesting user's fields (get_object runs before validation); after that the
serializer validates field_type and the label (same checks as creation) and
the columns are written, the label trimmed. -/
def api_formfield_update (db : Database) (owner fid : Nat) (label field_type : String)
    (required : Bool) (order : Nat) : Except DBError Database :=
  match (db.form_fields.filter (fun f => decide (f.created_by = owner))).find?
      (fun f => decide (f.id = fid)) with
  | none => Except.error DBError.notFoundError
  | some _ =>
    if validLabel label && validType field_type then
      Except.ok { db with
        form_fields := db.form_fields.map (fun f =>
          if f.id = fid ∧ f.created_by = owner then
            { f with label := trimStr label, field_type := field_type,
                     required := required, order := order }
          else f) }
    else Except.error DBError.validationError

/-- FormFieldRetrieveUpdateDestroyView DELETE: 404 when the pk is not among
the requesting user's fields, otherwise the row is deleted. -/
def formfield_destroy (db : Database) (owner fid : Nat) : Except DBError Database :=
  match (db.form_fields.filter (fun f => decide (f.created_by = owner))).find?
      (fun f => decide (f.id = fid)) with
  | none => Except.error DBError.notFoundError
  | some _ =>
    Except.ok { db with
      form_fields := db.form_fields.filter
        (fun f => !(decide (f.id = fid ∧ f.created_by = owner))) }

/-- The POST branch of employee_create_view (views.py): build the values map
over `FormField.objects.filter(created_by=request.user)`, then
`Employee.objects.create(user=request.user, fields=fields)`. Employee.user is
a OneToOneField, so the insert violates its unique constraint and raises
IntegrityError whenever the user already has an Employee row. -/
def employee_create_view (db : Database) (owner : Nat) (post : List (Nat × String)) :
    Except DBError Database :=
  let values := buildValues (listFields db owner) post
  if db.employees.any (fun e => decide (e.user = owner)) then
    Except.error DBError.integrityError
  else
    Except.ok { db with
      employees := db.employees ++
        [{ id := db.next_employee_id, user := owner, fields := values }],
      next_employee_id := db.next_employee_id + 1 }

/-- EmployeeRetrieveUpdateDestroyView GET / `Employee.objects.get(pk=pk,
user=request.user)`: DoesNotExist (a 404) unless the row exists and belongs
to the requesting user. -/
def employee_get (db : Database) (owner pk : Nat) : Except DBError Employee :=
  match db.employees.find? (fun e => decide (e.id = pk ∧ e.user = owner)) with
  | none => Except.error DBError.notFoundError
  | some e => Except.ok e

/-- The POST branch of employee_edit_view (views.py):
`Employee.objects.get(pk=pk, user=request.user)` (DoesNotExist when unowned),
then the values map is rebuilt over the owner's current fields exactly as in
employee_create_view and assigned to `employee.fields` wholesale. -/
def employee_edit_view (db : Database) (owner pk : Nat) (post : List (Nat × String)) :
    Except DBError Database :=
  match db.employees.find? (fun e => decide (e.id = pk ∧ e.user = owner)) with
  | none => Except.error DBError.notFoundError
  | some _ =>
    Except.ok { db with
      employees := db.employees.map (fun e =>
        if e.id = pk ∧ e.user = owner then
          { e with fields := buildValues (listFields db owner) post }
        else e) }

/-- employee_delete_view (views.py): `Employee.objects.get(pk=pk,
user=request.user)` (DoesNotExist when unowned), then the row is deleted. -/
def employee_delete_view (db : Database) (owner pk : Nat) : Except DBError Database :=
  match db.employees.find? (fun e => decide (e.id = pk ∧ e.user = owner)) with
  | none => Except.error DBError.notFoundError
  | some _ =>
    Except.ok { db with
      employees := db.employees.filter
        (fun e => !(decide (e.id = pk ∧ e.user = owner))) }

/-- Whether the character list starting here begins with the needle. -/
def startsWithChars : List Char → List Char → Bool
  | _, [] => true
  | [], _ :: _ => false
  | c :: cs, d :: ds => c == d && startsWithChars cs ds

/-- Whether the needle occurs contiguously anywhere in the haystack. -/
def hasSubstrChars : List Char → List Char → Bool
  | [], needle => startsWithChars [] needle
  | c :: cs, needle => startsWithChars (c :: cs) needle || hasSubstrChars cs needle

/-- Django's `fields__icontains=q` lookup: case-insensitive containment of
`q` in the stored text of the JSON column. -/
def icontains (hay needle : String) : Bool :=
  hasSubstrChars (hay.data.map Char.toLower) (needle.data.map Char.toLower)

/-- Modelled from the spec: the "serialized textual (e.g., JSON)
representation" of a stored values map that the substring search runs over —
the JSON text the persistence layer keeps for the Employee.fields column
(string escaping inside values is not modelled; no claim depends on it). -/
def serializeValue : Option String → String
  | none => "null"
  | some s => "\x22" ++ s ++ "\x22"

/-- One `"label": {"value": ..., "type": ...}` entry of the serialized map. -/
def serializeEntry (e : String × FieldValue) : String :=
  "\x22" ++ e.1 ++ "\x22: \x7b\x22value\x22: " ++ serializeValue e.2.value ++
    ", \x22type\x22: \x22" ++ e.2.type ++ "\x22\x7d"

/-- The serialized text of the whole values map, as `json.dumps` renders the
dict the views store. -/
def serializeFields (m : List (String × FieldValue)) : String :=
  "\x7b" ++ String.intercalate ", " (m.map serializeEntry) ++ "\x7d"

/-- employee_list_view (views.py): the requesting user's employees, and when
`request.GET.get('search', '')` is nonempty (truthy), only those matching
`fields__icontains=search_query`. -/
def employee_list_view (db : Database) (owner : Nat) (search_query : String) : List Employee :=
  let employees := db.employees.filter (fun e => decide (e.user = owner))
  if search_query = "" then employees
  else employees.filter (fun e => icontains (serializeFields e.fields) search_query)

/-- The loop of update_field_order (views.py): for idx, field_id in
enumerate(order), `FormField.objects.filter(id=field_id,
created_by=request.user).update(order=idx)` — each pass rewrites the order of
the matching owned row, leaving every other row as it was. -/
def applyFieldOrder (owner : Nat) : List FormField → List Nat → Nat → List FormField
  | ffs, [], _ => ffs
  | ffs, fid :: rest, idx =>
    applyFieldOrder owner
      (ffs.map (fun f => if f.id = fid ∧ f.created_by = owner then { f with order := idx } else f))
      rest (idx + 1)

/-- update_field_order (views.py), POST branch: the posted `order[]` list is
walked with `enumerate`, starting at index 0. -/
def update_field_order (db : Database) (owner : Nat) (order : List Nat) : Database :=
  { db with form_fields := applyFieldOrder owner db.form_fields order 0 }

/-- Stated from the spec only, for comparison with the code: the order the
spec assigns to a freshly defined field — current maximum among the owner's
fields plus 1, or 0 when the owner has none (spec 4.1, defineField). -/
def specNextOrder (db : Database) (owner : Nat) : Nat :=
  let orders := (db.form_fields.filter (fun f => decide (f.created_by = owner))).map
    (fun f => f.order)
  if orders.isEmpty then 0 else orders.foldl max 0 + 1

/-- Stated from the spec only, for comparison with the code: the search
predicate as the spec words it — the serialized values map contains the term
as a case-sensitive substring. -/
def specSearchMatch (e : Employee) (searchTerm : String) : Bool :=
  hasSubstrChars (serializeFields e.fields).data searchTerm.data

/-!
Concrete databases used as inputs by the counterexamples and the witnesses.
-/

/-- Two fields of owner 1 sharing the label "name". -/
def dbC1 : Database :=
  { form_fields :=
      [{ id := 1, label := "name", field_type := "text", required := true,
         order := 0, created_by := 1 },
       { id := 2, label := "name", field_type := "number", required := true,
         order := 1, created_by := 1 }],
    employees := [], next_field_id := 3, next_employee_id := 1 }

/-- A submission giving both same-labelled fields of dbC1 distinct values. -/
def postC1 : List (Nat × String) := [(1, "a"), (2, "b")]

/-- The state employee_create_view leaves behind on dbC1/postC1: one record
whose map holds a single "name" entry carrying the second field's pair. -/
def dbC1res : Database :=
  { dbC1 with
    employees := [{ id := 1, user := 1,
                    fields := [("name", { value := some "b", type := "number" })] }],
    next_employee_id := 2 }

/-- One field of owner 1 and no records yet. -/
def dbW1 : Database :=
  { form_fields :=
      [{ id := 1, label := "name", field_type := "text", required := true,
         order := 0, created_by := 1 }],
    employees := [], next_field_id := 2, next_employee_id := 1 }

def postW1 : List (Nat × String) := [(1, "Ada")]

/-- Fields 1 and 2 of owner 1 and field 3 of owner 2. -/
def dbW2 : Database :=
  { form_fields :=
      [{ id := 1, label := "a", field_type := "text", required := true,
         order := 0, created_by := 1 },
       { id := 2, label := "b", field_type := "text", required := true,
         order := 1, created_by := 1 },
       { id := 3, label := "c", field_type := "text", required := true,
         order := 5, created_by := 2 }],
    employees := [], next_field_id := 4, next_employee_id := 1 }

/-- A record of owner 1 whose serialized values contain "smith" in lower case
only. -/
def empC3a : Employee :=
  { id := 1, user := 1, fields := [("name", { value := some "smith", type := "text" })] }

/-- A record of owner 1 with no occurrence of "smith" in any casing. -/
def empC3b : Employee :=
  { id := 2, user := 1, fields := [("name", { value := some "Jones", type := "text" })] }

def dbC3 : Database :=
  { form_fields := [], employees := [empC3a, empC3b],
    next_field_id := 1, next_employee_id := 3 }

/-- Owner 1 already has one field, with order 0. -/
def dbC4 : Database :=
  { form_fields :=
      [{ id := 1, label := "a", field_type := "text", required := true,
         order := 0, created_by := 1 }],
    employees := [], next_field_id := 2, next_employee_id := 1 }

/-- The empty state. -/
def dbC5 : Database :=
  { form_fields := [], employees := [], next_field_id := 1, next_employee_id := 1 }

/-- dbC5 after owner 1's first createRecord. -/
def dbC5b : Database :=
  { form_fields := [], employees := [{ id := 1, user := 1, fields := [] }],
    next_field_id := 1, next_employee_id := 2 }

/-- A field and a record of owner 1, to be probed by owner 2. -/
def dbW6 : Database :=
  { form_fields :=
      [{ id := 1, label := "a", field_type := "text", required := true,
         order := 0, created_by := 1 }],
    employees := [{ id := 1, user := 1, fields := [] }],
    next_field_id := 2, next_employee_id := 2 }

/-- A record of owner 1 holding a stale entry under a label no current field
carries, and one current field with a fresh label. -/
def dbW7 : Database :=
  { form_fields :=
      [{ id := 5, label := "phone", field_type := "text", required := false,
         order := 0, created_by := 1 }],
    employees := [{ id := 1, user := 1,
                    fields := [("oldfield", { value := some "stale", type := "text" })] }],
    next_field_id := 6, next_employee_id := 2 }

def postW7 : List (Nat × String) := [(5, "123")]

/-- The empty state, input of the invalid-type creation. -/
def dbC8 : Database :=
  { form_fields := [], employees := [], next_field_id := 1, next_employee_id := 1 }

/-- A field and a record of owner 1. -/
def dbW9 : Database :=
  { form_fields :=
      [{ id := 1, label := "a", field_type := "text", required := true,
         order := 0, created_by := 1 }],
    employees := [{ id := 1, user := 1,
                    fields := [("a", { value := some "v", type := "text" })] }],
    next_field_id := 2, next_employee_id := 2 }

/-- dbW9 with its only field deleted; its record is untouched. -/
def dbW9res : Database := { dbW9 with form_fields := [] }

example : rawGet [(1, "a"), (2, "b")] 2 = some "b" := by decide

example : trimStr "  first name " = "first name" := by decide

example : validLabel "" = false ∧ validLabel " " = false ∧ validLabel "name" = true := by
  decide

example : icontains "abC dEf" "CD" = false := by decide

example : icontains "abC dEf" "c d" = true := by decide

example :
    serializeFields [("name", { value := some "smith", type := "text" })] =
      "\x7b\x22name\x22: \x7b\x22value\x22: \x22smith\x22, \x22type\x22: \x22text\x22\x7d\x7d" := by
  decide

example :
    buildValues [{ id := 1, label := "a", field_type := "text", required := true,
                   order := 0, created_by := 1 }] [] =
      [("a", { value := none, type := "text" })] := by decide

theorem dictGet_dictInsert (m : List (String × FieldValue)) (k : String) (v : FieldValue)
    (L : String) :
    dictGet (dictInsert m k v) L = if L = k then some v else dictGet m L := by
  induction m with
  | nil =>
    by_cases h : L = k
    · simp [dictInsert, dictGet, h]
    · simp [dictInsert, dictGet, h, Ne.symm h]
  | cons e rest ih =>
    by_cases hek : e.1 = k
    · by_cases hLk : L = k
      · simp [dictInsert, dictGet, hek, hLk]
      · have hne : e.1 ≠ L := by rw [hek]; exact Ne.symm hLk
        simp [dictInsert, dictGet, hek, hLk, Ne.symm hLk, hne]
    · by_cases hLk : L = k
      · subst hLk
        simp [dictInsert, dictGet, hek, ih]
      · by_cases heL : e.1 = L
        · simp [dictInsert, dictGet, hek, hLk, heL]
        · simp [dictInsert, dictGet, hek, hLk, heL, ih]

theorem dictGet_foldl_build (post : List (Nat × String)) (ffs : List FormField) :
    ∀ (init : List (String × FieldValue)) (L : String),
    dictGet (ffs.foldl (fun acc f => dictInsert acc f.label (submittedPair post f)) init) L =
      match lastFieldWith ffs L with
      | some g => some (submittedPair post g)
      | none => dictGet init L := by
  induction ffs with
  | nil => intro init L; rfl
  | cons f rest ih =>
    intro init L
    rw [List.foldl_cons, ih (dictInsert init f.label (submittedPair post f)) L]
    cases hrest : lastFieldWith rest L with
    | some g => simp [lastFieldWith, hrest]
    | none =>
      rw [dictGet_dictInsert]
      by_cases hL : f.label = L
      · simp [lastFieldWith, hrest, hL]
      · simp [lastFieldWith, hrest, hL, Ne.symm hL]

theorem dictGet_buildValues (ffs : List FormField) (post : List (Nat × String)) (L : String) :
    dictGet (buildValues ffs post) L = (lastFieldWith ffs L).map (submittedPair post) := by
  rw [buildValues, dictGet_foldl_build]
  cases lastFieldWith ffs L <;> rfl

theorem lastFieldWith_eq_none (ffs : List FormField) (L : String) :
    lastFieldWith ffs L = none ↔ L ∉ ffs.map (fun f => f.label) := by
  induction ffs with
  | nil => simp [lastFieldWith]
  | cons f rest ih =>
    cases hrest : lastFieldWith rest L with
    | some g =>
      have hmem : L ∈ rest.map (fun f => f.label) := by
        by_contra hm
        have h0 := ih.mpr hm
        rw [h0] at hrest
        exact Option.noConfusion hrest
      simp [lastFieldWith, hrest, List.map_cons, List.mem_cons, hmem]
    | none =>
      by_cases hL : f.label = L
      · simp [lastFieldWith, hrest, hL]
      · have hrest2 := ih.mp hrest
        simp only [lastFieldWith, hrest, hL, if_false, List.map_cons, List.mem_cons]
        constructor
        · intro _ hc
          rcases hc with hc | hc
          · exact hL hc.symm
          · exact hrest2 hc
        · intro _; trivial

theorem dictGet_eq_none (m : List (String × FieldValue)) (L : String) :
    dictGet m L = none ↔ L ∉ dictKeys m := by
  induction m with
  | nil => simp [dictGet, dictKeys]
  | cons e rest ih =>
    by_cases he : e.1 = L
    · simp [dictGet, dictKeys, he]
    · simp [dictGet, dictKeys, he, Ne.symm he, ih]

theorem dictKeys_dictInsert (m : List (String × FieldValue)) (k : String) (v : FieldValue) :
    dictKeys (dictInsert m k v) =
      if dictGet m k = none then dictKeys m ++ [k] else dictKeys m := by
  induction m with
  | nil => simp [dictInsert, dictGet, dictKeys]
  | cons e rest ih =>
    by_cases he : e.1 = k
    · simp [dictInsert, dictGet, dictKeys, he]
    · by_cases hr : dictGet rest k = none
      · simp [dictInsert, dictGet, dictKeys, he, hr] at ih ⊢
        exact ih
      · simp [dictInsert, dictGet, dictKeys, he, hr] at ih ⊢
        exact ih

theorem nodup_dictKeys_dictInsert (m : List (String × FieldValue)) (k : String)
    (v : FieldValue) (h : (dictKeys m).Nodup) : (dictKeys (dictInsert m k v)).Nodup := by
  rw [dictKeys_dictInsert]
  by_cases hg : dictGet m k = none
  · have hk : k ∉ dictKeys m := (dictGet_eq_none m k).mp hg
    simp [hg, List.nodup_append, h, List.Disjoint]
    intro a ha hak
    exact hk (hak ▸ ha)
  · simp [hg, h]

theorem nodup_dictKeys_foldl_build (post : List (Nat × String)) (ffs : List FormField) :
    ∀ (init : List (String × FieldValue)), (dictKeys init).Nodup →
    (dictKeys (ffs.foldl (fun acc f => dictInsert acc f.label (submittedPair post f)) init)).Nodup := by
  induction ffs with
  | nil => intro init h; exact h
  | cons f rest ih =>
    intro init h
    rw [List.foldl_cons]
    exact ih _ (nodup_dictKeys_dictInsert init f.label (submittedPair post f) h)

theorem nodup_dictKeys_buildValues (ffs : List FormField) (post : List (Nat × String)) :
    (dictKeys (buildValues ffs post)).Nodup :=
  nodup_dictKeys_foldl_build post ffs [] (by simp [dictKeys])

theorem mem_dictKeys_buildValues (ffs : List FormField) (post : List (Nat × String))
    (L : String) :
    L ∈ dictKeys (buildValues ffs post) ↔ L ∈ ffs.map (fun f => f.label) := by
  constructor
  · intro h
    by_contra hm
    have h0 : lastFieldWith ffs L = none := (lastFieldWith_eq_none ffs L).mpr hm
    have h1 : dictGet (buildValues ffs post) L = none := by
      rw [dictGet_buildValues, h0]; rfl
    exact (dictGet_eq_none _ L).mp h1 h
  · intro h
    by_contra hm
    have h1 : dictGet (buildValues ffs post) L = none := by
      rcases hg : dictGet (buildValues ffs post) L with _ | v
      · rfl
      · exact absurd ((dictGet_eq_none _ L).mpr hm ▸ hg) (by simp [hm, (dictGet_eq_none _ L).mpr])
    have h0 : (lastFieldWith ffs L).map (submittedPair post) = none := by
      rw [← dictGet_buildValues]; exact h1
    have h2 : lastFieldWith ffs L = none := by
      rcases hlast : lastFieldWith ffs L with _ | g
      · rfl
      · rw [hlast] at h0; exact Option.noConfusion h0
    exact (lastFieldWith_eq_none ffs L).mp h2 h

theorem length_buildValues (ffs : List FormField) (post : List (Nat × String)) :
    (buildValues ffs post).length = (ffs.map (fun f => f.label)).toFinset.card := by
  have hnd := nodup_dictKeys_buildValues ffs post
  have hset : (dictKeys (buildValues ffs post)).toFinset =
      (ffs.map (fun f => f.label)).toFinset := by
    ext L
    simp only [List.mem_toFinset]
    exact mem_dictKeys_buildValues ffs post L
  calc (buildValues ffs post).length
      = (dictKeys (buildValues ffs post)).length := (List.length_map _ _).symm
    _ = (dictKeys (buildValues ffs post)).toFinset.card :=
        (List.toFinset_card_of_nodup hnd).symm
    _ = (ffs.map (fun f => f.label)).toFinset.card := by rw [hset]

theorem toFinset_card_lt_of_not_nodup {α : Type} [DecidableEq α] (l : List α)
    (h : ¬l.Nodup) : l.toFinset.card < l.length := by
  refine lt_of_le_of_ne (List.toFinset_card_le l) ?_
  intro he
  apply h
  have h2 : ((l : Multiset α).toFinset.card = Multiset.card (l : Multiset α)) := by
    simpa [List.toFinset_coe] using he
  simpa using Multiset.toFinset_card_eq_card_iff_nodup.mp h2

theorem mem_orderInsert (f g : FormField) (l : List FormField) :
    g ∈ orderInsert f l ↔ g = f ∨ g ∈ l := by
  induction l with
  | nil => simp [orderInsert]
  | cons a as ih =>
    by_cases hfa : f.order ≤ a.order
    · simp [orderInsert, hfa, List.mem_cons]
    · simp only [orderInsert, hfa, if_false, List.mem_cons, ih]
      tauto

theorem mem_sortByOrder (g : FormField) (l : List FormField) :
    g ∈ sortByOrder l ↔ g ∈ l := by
  induction l with
  | nil => simp [sortByOrder]
  | cons a as ih => simp [sortByOrder, mem_orderInsert, ih, List.mem_cons]

theorem mem_listFields (db : Database) (owner : Nat) (f : FormField)
    (h : f ∈ listFields db owner) : f ∈ db.form_fields ∧ f.created_by = owner := by
  rw [listFields, mem_sortByOrder] at h
  simpa using List.mem_filter.mp h

theorem label_mem_of_dictGet_buildValues (ffs : List FormField) (post : List (Nat × String))
    (L : String) (v : FieldValue) (h : dictGet (buildValues ffs post) L = some v) :
    L ∈ ffs.map (fun f => f.label) := by
  rw [← mem_dictKeys_buildValues ffs post L]
  by_contra hm
  rw [(dictGet_eq_none _ _).mpr hm] at h
  exact Option.noConfusion h

theorem value_none_of_empty_post (ffs : List FormField) (L : String) (v : FieldValue)
    (h : dictGet (buildValues ffs []) L = some v) : v.value = none := by
  rw [dictGet_buildValues] at h
  rcases hlast : lastFieldWith ffs L with _ | g
  · rw [hlast] at h; exact Option.noConfusion h
  · rw [hlast] at h
    have hv : v = submittedPair [] g := by
      have h2 : some (submittedPair [] g) = some v := by simpa using h
      exact (Option.some_inj.mp h2).symm
    rw [hv]
    rfl

theorem applyFieldOrder_eq (owner : Nat) :
    ∀ (ids : List Nat), ids.Nodup → ∀ (ffs : List FormField) (k : Nat),
    applyFieldOrder owner ffs ids k = ffs.map (fun f =>
      if f.created_by = owner ∧ f.id ∈ ids then
        { f with order := k + List.indexOf f.id ids }
      else f) := by
  intro ids
  induction ids with
  | nil =>
    intro _ ffs k
    simp [applyFieldOrder]
  | cons fid rest ih =>
    intro h ffs k
    obtain ⟨hmem, hnd⟩ := List.nodup_cons.mp h
    rw [applyFieldOrder, ih hnd _ (k + 1), List.map_map]
    apply List.map_congr_left
    intro f _
    simp only [Function.comp_apply]
    by_cases hco : f.created_by = owner
    · by_cases hid : f.id = fid
      · have hnotin : ¬f.id ∈ rest := by rw [hid]; exact hmem
        have hin : f.id ∈ fid :: rest := by rw [hid]; exact List.mem_cons_self fid rest
        have hidx : List.indexOf f.id (fid :: rest) = 0 := by
          simp [List.indexOf_cons, hid.symm]
        simp [hid, hco, hnotin, hmem, hin, hidx]
      · by_cases hmem2 : f.id ∈ rest
        · have hin : f.id ∈ fid :: rest := List.mem_cons_of_mem fid hmem2
          have hbeq : (fid == f.id) = false := by
            rw [beq_eq_false_iff_ne]
            intro hc
            exact hid hc.symm
          have hidx : List.indexOf f.id (fid :: rest) = List.indexOf f.id rest + 1 := by
            simp [List.indexOf_cons, hbeq]
          have harith : k + 1 + List.indexOf f.id rest = k + (List.indexOf f.id rest + 1) := by
            omega
          simp [hid, hco, hmem2, hin, hidx, harith]
        · have hnotin : ¬f.id ∈ fid :: rest := by
            intro hc
            rcases List.mem_cons.mp hc with hc | hc
            · exact hid hc
            · exact hmem2 hc
          simp [hid, hco, hmem2, hnotin]
    · simp [hco]

theorem user_eq_of_mem_employee_list_view (db : Database) (owner : Nat) (q : String)
    (e : Employee) (h : e ∈ employee_list_view db owner q) : e.user = owner := by
  unfold employee_list_view at h
  split at h
  · exact decide_eq_true_eq.mp (List.mem_filter.mp h).2
  · exact decide_eq_true_eq.mp (List.mem_filter.mp (List.mem_filter.mp h).1).2

/-- Claim C1 (amended): provided the owner has no existing Record — the
OneToOneField unique constraint makes a second insert fail, see C5 —
employee_create_view succeeds for every submission (the `required` flag of a
field is never consulted), appends a Record whose values map is
buildValues over the owner's current fields, under each label the pair
{value := the submitted value for the field's id, or none when no value was
submitted, type := the field's type} of the last field in iteration order
carrying that label, and with an empty submission every stored entry has
value none. -/
theorem C1_createRecord_builds_values (db : Database) (owner : Nat)
    (post : List (Nat × String)) (hfree : ∀ e ∈ db.employees, e.user ≠ owner) :
    employee_create_view db owner post = Except.ok { db with
      employees := db.employees ++
        [{ id := db.next_employee_id, user := owner,
           fields := buildValues (listFields db owner) post }],
      next_employee_id := db.next_employee_id + 1 } ∧
    (∀ f ∈ listFields db owner, lastFieldWith (listFields db owner) f.label = some f →
      dictGet (buildValues (listFields db owner) post) f.label = some (submittedPair post f)) ∧
    (∀ (L : String) (v : FieldValue),
      dictGet (buildValues (listFields db owner) []) L = some v → v.value = none) := by
  refine ⟨?_, ?_, ?_⟩
  · have hany : db.employees.any (fun e => decide (e.user = owner)) = false := by
      rw [List.any_eq_false]
      intro e he
      simpa using hfree e he
    unfold employee_create_view
    rw [hany]
    rfl
  · intro f _ hlast
    rw [dictGet_buildValues, hlast]
    rfl
  · intro L v hv
    exact value_none_of_empty_post _ L v hv

/-- C1 witness: on dbW1 and postW1 the hypothesis holds and the theorem
applies. -/
theorem C1_createRecord_builds_values_witness :
    (∀ e ∈ dbW1.employees, e.user ≠ 1) ∧
    (employee_create_view dbW1 1 postW1 = Except.ok { dbW1 with
      employees := dbW1.employees ++
        [{ id := dbW1.next_employee_id, user := 1,
           fields := buildValues (listFields dbW1 1) postW1 }],
      next_employee_id := dbW1.next_employee_id + 1 } ∧
    (∀ f ∈ listFields dbW1 1, lastFieldWith (listFields dbW1 1) f.label = some f →
      dictGet (buildValues (listFields dbW1 1) postW1) f.label = some (submittedPair postW1 f)) ∧
    (∀ (L : String) (v : FieldValue),
      dictGet (buildValues (listFields dbW1 1) []) L = some v → v.value = none)) :=
  ⟨by decide, C1_createRecord_builds_values dbW1 1 postW1 (by decide)⟩

/-- C1 counterexample: on dbC1, whose two fields share the label "name",
creation succeeds but the resulting values map does not assign to each
field's label that field's own submitted pair — the first field's pair is
overwritten by the second. -/
theorem C1_duplicate_label_counterexample :
    employee_create_view dbC1 1 postC1 = Except.ok dbC1res ∧
    ¬(∀ f ∈ listFields dbC1 1,
      dictGet (buildValues (listFields dbC1 1) postC1) f.label =
        some (submittedPair postC1 f)) := by
  constructor
  · decide
  · decide

/-- Claim C2: for a duplicate-free posted sequence, update_field_order gives
each owned field whose id appears in the sequence the order equal to its
0-based position there; ids that are foreign or missing are skipped (the
operation is total and returns success either way), and fields whose ids do
not appear keep their previous order. -/
theorem C2_reorder_assigns_indices (db : Database) (owner : Nat) (ids : List Nat)
    (h : ids.Nodup) :
    (update_field_order db owner ids).form_fields = db.form_fields.map (fun f =>
      if f.created_by = owner ∧ f.id ∈ ids then
        { f with order := List.indexOf f.id ids }
      else f) ∧
    (update_field_order db owner ids).employees = db.employees := by
  constructor
  · rw [update_field_order]
    rw [applyFieldOrder_eq owner ids h db.form_fields 0]
    simp [Nat.zero_add]
  · rfl

/-- C2 witness: owner 1 posts the order [2, 1, 99, 3]; ids 99 (nonexistent)
and 3 (owner 2's field) are skipped, fields 2 and 1 get orders 0 and 1. -/
theorem C2_reorder_assigns_indices_witness :
    ([2, 1, 99, 3] : List Nat).Nodup ∧
    ((update_field_order dbW2 1 [2, 1, 99, 3]).form_fields = dbW2.form_fields.map (fun f =>
      if f.created_by = 1 ∧ f.id ∈ ([2, 1, 99, 3] : List Nat) then
        { f with order := List.indexOf f.id ([2, 1, 99, 3] : List Nat) }
      else f) ∧
    (update_field_order dbW2 1 [2, 1, 99, 3]).employees = dbW2.employees) :=
  ⟨by decide, C2_reorder_assigns_indices dbW2 1 [2, 1, 99, 3] (by decide)⟩

/-- Claim C3 (amended): listRecords returns exactly the owner's records, and
with a nonempty search term exactly those whose serialized values map
contains the term as a case-insensitive substring (the Django icontains
lookup); with an empty term, all of the owner's records. -/
theorem C3_search_case_insensitive (db : Database) (owner : Nat) (q : String)
    (e : Employee) :
    e ∈ employee_list_view db owner q ↔
      e ∈ db.employees ∧ e.user = owner ∧
        (q ≠ "" → icontains (serializeFields e.fields) q = true) := by
  unfold employee_list_view
  by_cases hq : q = ""
  · simp [hq, List.mem_filter]
  · simp only [hq, if_false, List.mem_filter, decide_eq_true_eq, ne_eq,
      not_false_iff, true_implies]
    constructor
    · rintro ⟨⟨h1, h2⟩, h3⟩
      exact ⟨h1, h2, h3⟩
    · rintro ⟨h1, h2, h3⟩
      exact ⟨⟨h1, h2⟩, h3⟩

/-- C3 counterexample: searching "Smith" returns the record whose serialized
values contain only the lower-case "smith" — a record that is not a
case-sensitive match, so the case-sensitive description of the filter is
false on this input. -/
theorem C3_case_sensitivity_counterexample :
    employee_list_view dbC3 1 "Smith" = [empC3a] ∧
    specSearchMatch empC3a "Smith" = false := by
  constructor
  · decide
  · decide

/-- Claim C4 (amended): the web creation path appends the new definition with
`order` equal to the model default 0, whatever orders the owner's existing
definitions carry; no next-available-slot (max + 1) computation exists in the
code. -/
theorem C4_defineField_order_zero (db : Database) (owner : Nat)
    (label field_type : String) (req : Bool) :
    (form_design_view_post db owner label field_type req).form_fields =
      db.form_fields ++
        [{ id := db.next_field_id, label := label, field_type := field_type,
           required := req, order := 0, created_by := owner }] := rfl

/-- C4 counterexample: owner 1 of dbC4 already has a field with order 0, so
the spec's next slot is 1, but the newly created field gets order 0. -/
theorem C4_next_slot_counterexample :
    ((form_design_view_post dbC4 1 "b" "text" true).form_fields.getLast?).map
        (fun f => f.order) = some 0 ∧
    specNextOrder dbC4 1 = 1 ∧
    ((form_design_view_post dbC4 1 "b" "text" true).form_fields.getLast?).map
        (fun f => f.order) ≠ some (specNextOrder dbC4 1) := by
  refine ⟨by decide, by decide, by decide⟩

/-- Claim C5 (code behavior at the failing input): owner 1's first
createRecord on the empty state succeeds, and the second raises
IntegrityError — Employee.user is a OneToOneField, so its unique constraint
caps each account at one Record, leaving the owner with a single record. -/
theorem C5_second_create_integrity_error :
    employee_create_view dbC5 1 [] = Except.ok dbC5b ∧
    employee_create_view dbC5b 1 [] = Except.error DBError.integrityError ∧
    dbC5b.employees.length = 1 := by
  refine ⟨by decide, by decide, by decide⟩

/-- Claim C7: employee_edit_view fails with DoesNotExist when no record with
that pk belongs to the owner; when one does, the record's values map is
replaced wholesale by buildValues over the owner's current fields and the
submission — the same construction employee_create_view performs — and every
key of the rebuilt map is the label of a current field, so stale entries of
the previous map do not survive. -/
theorem C7_updateRecord_full_replace (db : Database) (owner pk : Nat)
    (post : List (Nat × String)) :
    ((∀ e ∈ db.employees, ¬(e.id = pk ∧ e.user = owner)) →
      employee_edit_view db owner pk post = Except.error DBError.notFoundError) ∧
    (∀ e ∈ db.employees, e.id = pk → e.user = owner →
      employee_edit_view db owner pk post = Except.ok { db with
        employees := db.employees.map (fun e2 =>
          if e2.id = pk ∧ e2.user = owner then
            { e2 with fields := buildValues (listFields db owner) post }
          else e2) }) ∧
    (∀ (L : String) (v : FieldValue),
      dictGet (buildValues (listFields db owner) post) L = some v →
      L ∈ (listFields db owner).map (fun f => f.label)) := by
  refine ⟨?_, ?_, ?_⟩
  · intro h
    have hnone : db.employees.find? (fun e => decide (e.id = pk ∧ e.user = owner)) = none := by
      rw [List.find?_eq_none]
      intro x hx
      simpa using h x hx
    unfold employee_edit_view
    rw [hnone]
  · intro e he h1 h2
    have hsome : (db.employees.find? (fun e => decide (e.id = pk ∧ e.user = owner))).isSome := by
      rw [List.find?_isSome]
      exact ⟨e, he, by simp [h1, h2]⟩
    rcases hfind : db.employees.find? (fun e => decide (e.id = pk ∧ e.user = owner)) with _ | e0
    · rw [hfind] at hsome
      exact Bool.noConfusion hsome
    · unfold employee_edit_view
      rw [hfind]
  · intro L v hv
    exact label_mem_of_dictGet_buildValues _ post L v hv

/-- Claim C8 (amended): the API creation path fails with ValidationError
exactly when the type is outside the eight-value enumeration or the label is
invalid (blank after trimming, or longer than 100 characters); for any type
inside the enumeration together with a valid label the definition is created,
with the trimmed label. The web form path runs no validation at all and
creates the definition whatever the type and label strings are. -/
theorem C8_type_validation_split (db : Database) (owner : Nat)
    (label field_type : String) (reqo : Option Bool) (ordo : Option Nat) (req : Bool) :
    (validLabel label = true → validType field_type = true →
      api_formfield_create db owner label field_type reqo ordo = Except.ok { db with
        form_fields := db.form_fields ++
          [{ id := db.next_field_id, label := trimStr label, field_type := field_type,
             required := reqo.getD true, order := ordo.getD 0, created_by := owner }],
        next_field_id := db.next_field_id + 1 }) ∧
    (validType field_type = false →
      api_formfield_create db owner label field_type reqo ordo =
        Except.error DBError.validationError) ∧
    (validLabel label = false →
      api_formfield_create db owner label field_type reqo ordo =
        Except.error DBError.validationError) ∧
    (form_design_view_post db owner label field_type req).form_fields =
      db.form_fields ++
        [{ id := db.next_field_id, label := label, field_type := field_type,
           required := req, order := 0, created_by := owner }] := by
  refine ⟨?_, ?_, ?_, rfl⟩
  · intro h1 h2
    simp [api_formfield_create, h1, h2]
  · intro h
    simp [api_formfield_create, h]
  · intro h
    simp [api_formfield_create, h]

/-- C8 counterexample: through the web form path an invalid type "bogus" is
stored without any ValidationError, so the definition is created although the
type is outside the enumeration. -/
theorem C8_web_path_counterexample :
    validType "bogus" = false ∧
    (form_design_view_post dbC8 1 "x" "bogus" true).form_fields =
      [{ id := 1, label := "x", field_type := "bogus", required := true,
         order := 0, created_by := 1 }] := by
  refine ⟨by decide, by decide⟩

/-- Claim C9: a successful deleteField removes exactly the addressed owned
definition from the FormField table and leaves the Employee table — every
record with its snapshotted values map — untouched. -/
theorem C9_deleteField_frame (db : Database) (owner fid : Nat) (db2 : Database)
    (h : formfield_destroy db owner fid = Except.ok db2) :
    db2.employees = db.employees ∧
    db2.form_fields = db.form_fields.filter
      (fun f => !(decide (f.id = fid ∧ f.created_by = owner))) := by
  rcases hfind : (db.form_fields.filter (fun f => decide (f.created_by = owner))).find?
      (fun f => decide (f.id = fid)) with _ | f0
  · unfold formfield_destroy at h
    rw [hfind] at h
    exact Except.noConfusion h
  · unfold formfield_destroy at h
    rw [hfind] at h
    have h2 := (Except.ok.injEq _ _).mp h
    rw [← h2]
    exact ⟨rfl, rfl⟩

/-- C9 witness: deleting owner 1's only field from dbW9 succeeds and leaves
its record untouched. -/
theorem C9_deleteField_frame_witness :
    formfield_destroy dbW9 1 1 = Except.ok dbW9res ∧
    (dbW9res.employees = dbW9.employees ∧
    dbW9res.form_fields = dbW9.form_fields.filter
      (fun f => !(decide (f.id = 1 ∧ f.created_by = 1)))) :=
  ⟨by decide, C9_deleteField_frame dbW9 1 1 dbW9res (by decide)⟩

/-- Claim C10: the values map a creation or update stores is characterized
per label by the last same-labelled field in iteration order (earlier
same-labelled fields' submissions are overwritten), its size is the number of
distinct labels — strictly fewer entries than the owner has fields whenever
labels repeat — and the record a successful creation appends carries exactly
this map. -/
theorem C10_duplicate_labels_last_wins (db : Database) (owner : Nat)
    (post : List (Nat × String)) :
    (∀ L : String, dictGet (buildValues (listFields db owner) post) L =
      (lastFieldWith (listFields db owner) L).map (submittedPair post)) ∧
    (buildValues (listFields db owner) post).length =
      ((listFields db owner).map (fun f => f.label)).toFinset.card ∧
    (¬((listFields db owner).map (fun f => f.label)).Nodup →
      (buildValues (listFields db owner) post).length < (listFields db owner).length) ∧
    (∀ db2 : Database, employee_create_view db owner post = Except.ok db2 →
      db2.employees.getLast? = some
        { id := db.next_employee_id, user := owner,
          fields := buildValues (listFields db owner) post }) := by
  refine ⟨?_, ?_, ?_, ?_⟩
  · intro L
    exact dictGet_buildValues _ post L
  · exact length_buildValues _ post
  · intro h
    rw [length_buildValues]
    have hlt := toFinset_card_lt_of_not_nodup _ h
    simpa [List.length_map] using hlt
  · intro db2 h
    unfold employee_create_view at h
    rcases hany : db.employees.any (fun e => decide (e.user = owner)) with _ | _
    · rw [hany] at h
      simp only [Bool.false_eq_true, if_false] at h
      have h2 := (Except.ok.injEq _ _).mp h
      rw [← h2]
      exact List.getLast?_concat _
    · rw [hany] at h
      simp only [if_true] at h
      exact Except.noConfusion h

/-- Claim C6: for two distinct owners A and B (over any state whose primary
keys are unique, as the database guarantees), nothing of A's is ever
returned by B's listing calls, and every id-scoped operation B invokes on an
entity of A's — retrieve, update or delete of a field, and retrieve, edit or
delete of a record — fails with the not-found error rather than revealing
the entity. -/
theorem C6_tenant_isolation (db : Database) (A B : Nat) (hAB : A ≠ B)
    (hfid : (db.form_fields.map (fun f => f.id)).Nodup)
    (heid : (db.employees.map (fun e => e.id)).Nodup) :
    (∀ f ∈ listFields db B, f.created_by ≠ A) ∧
    (∀ (q : String), ∀ e ∈ employee_list_view db B q, e.user ≠ A) ∧
    (∀ f ∈ db.form_fields, f.created_by = A →
      formfield_retrieve db B f.id = Except.error DBError.notFoundError ∧
      (∀ (label ftype : String) (req : Bool) (ord : Nat),
        api_formfield_update db B f.id label ftype req ord =
          Except.error DBError.notFoundError) ∧
      formfield_destroy db B f.id = Except.error DBError.notFoundError) ∧
    (∀ e ∈ db.employees, e.user = A →
      employee_get db B e.id = Except.error DBError.notFoundError ∧
      (∀ post : List (Nat × String),
        employee_edit_view db B e.id post = Except.error DBError.notFoundError) ∧
      employee_delete_view db B e.id = Except.error DBError.notFoundError) := by
  refine ⟨?_, ?_, ?_, ?_⟩
  · intro f hf
    rw [(mem_listFields db B f hf).2]
    exact Ne.symm hAB
  · intro q e he
    rw [user_eq_of_mem_employee_list_view db B q e he]
    exact Ne.symm hAB
  · intro f hf hA
    have hnone : (db.form_fields.filter (fun g => decide (g.created_by = B))).find?
        (fun g => decide (g.id = f.id)) = none := by
      rw [List.find?_eq_none]
      intro x hx
      obtain ⟨hxm, hxB⟩ := List.mem_filter.mp hx
      rw [decide_eq_true_eq] at hxB
      simp only [decide_eq_true_eq]
      intro hxid
      have hxf : x = f := List.inj_on_of_nodup_map hfid hxm hf hxid
      rw [hxf] at hxB
      exact absurd (hA.symm.trans hxB) hAB
    refine ⟨?_, ?_, ?_⟩
    · unfold formfield_retrieve
      rw [hnone]
    · intro label ftype req ord
      unfold api_formfield_update
      rw [hnone]
    · unfold formfield_destroy
      rw [hnone]
  · intro e he hA
    have hnone : db.employees.find? (fun x => decide (x.id = e.id ∧ x.user = B)) = none := by
      rw [List.find?_eq_none]
      intro x hx
      simp only [decide_eq_true_eq]
      rintro ⟨h1, h2⟩
      have hxe : x = e := List.inj_on_of_nodup_map heid hx he h1
      rw [hxe] at h2
      exact absurd (hA.symm.trans h2) hAB
    refine ⟨?_, ?_, ?_⟩
    · unfold employee_get
      rw [hnone]
    · intro post
      unfold employee_edit_view
      rw [hnone]
    · unfold employee_delete_view
      rw [hnone]

/-- C6 witness: owner 2 probes owner 1's field and record in dbW6. -/
theorem C6_tenant_isolation_witness :
    ((1 : Nat) ≠ 2 ∧ (dbW6.form_fields.map (fun f => f.id)).Nodup ∧
      (dbW6.employees.map (fun e => e.id)).Nodup) ∧
    ((∀ f ∈ listFields dbW6 2, f.created_by ≠ 1) ∧
     (∀ (q : String), ∀ e ∈ employee_list_view dbW6 2 q, e.user ≠ 1) ∧
     (∀ f ∈ dbW6.form_fields, f.created_by = 1 →
       formfield_retrieve dbW6 2 f.id = Except.error DBError.notFoundError ∧
       (∀ (label ftype : String) (req : Bool) (ord : Nat),
         api_formfield_update dbW6 2 f.id label ftype req ord =
           Except.error DBError.notFoundError) ∧
       formfield_destroy dbW6 2 f.id = Except.error DBError.notFoundError) ∧
     (∀ e ∈ dbW6.employees, e.user = 1 →
       employee_get dbW6 2 e.id = Except.error DBError.notFoundError ∧
       (∀ post : List (Nat × String),
         employee_edit_view dbW6 2 e.id post = Except.error DBError.notFoundError) ∧
       employee_delete_view dbW6 2 e.id = Except.error DBError.notFoundError)) :=
  ⟨⟨by decide, by decide, by decide⟩,
   C6_tenant_isolation dbW6 1 2 (by decide) (by decide) (by decide)⟩

/-- C7 witness: editing owner 1's record of dbW7 replaces the stale values
map with one rebuilt from the single current field. -/
theorem C7_updateRecord_full_replace_witness :
    ((∀ e ∈ dbW7.employees, ¬(e.id = 1 ∧ e.user = 1)) →
      employee_edit_view dbW7 1 1 postW7 = Except.error DBError.notFoundError) ∧
    (∀ e ∈ dbW7.employees, e.id = 1 → e.user = 1 →
      employee_edit_view dbW7 1 1 postW7 = Except.ok { dbW7 with
        employees := dbW7.employees.map (fun e2 =>
          if e2.id = 1 ∧ e2.user = 1 then
            { e2 with fields := buildValues (listFields dbW7 1) postW7 }
          else e2) }) ∧
    (∀ (L : String) (v : FieldValue),
      dictGet (buildValues (listFields dbW7 1) postW7) L = some v →
      L ∈ (listFields dbW7 1).map (fun f => f.label)) :=
  C7_updateRecord_full_replace dbW7 1 1 postW7
